import Mathlib

/-!
Verification of the versioned-decode mechanism of `src/versioning/versioning.go`.

The Go core decodes a byte payload, tagged with a version string, into the
canonical `GreetRequest` record.  The legacy `"v1"` tag routes through a
`GreetRequestV1` adapter whose custom `UnmarshalJSON` joins the separate
first/last name fields and writes the result through an embedded pointer to
the caller's canonical record; every other tag parses the payload directly as
the current shape.

The embedding works at the level of the `encoding/json` value model: a payload
stream is represented pre-tokenized as the sequence of well-formed JSON
documents it contains, followed by an optional malformed remainder.
`decoderDecode` models `json.Decoder.Decode` (reads the next JSON-encoded
value from the stream), and the per-struct unmarshal functions follow the
documented `encoding/json` semantics for the concrete struct types of the
source: object keys are matched against field tags exactly or
ASCII-case-insensitively, unknown keys are ignored, a JSON `null` into a field
is a no-op, a wrong-typed value records the first type error while decoding of
the remaining fields continues, and a `null` or non-object document at the top
level is a type error that leaves the target unchanged.
-/

set_option autoImplicit false

namespace Versioning

/-- JSON document model: the shape of one well-formed JSON value as
`encoding/json` tokenizes it.  Numbers are modelled as integers; their only
role in the source's structs is to be a wrong type for a string field. -/
inductive Json where
  | null
  | bool (b : Bool)
  | num (n : Int)
  | str (s : String)
  | arr (elems : List Json)
  | obj (fields : List (String × Json))
  deriving Repr

/-- Go type-name style description of a JSON value, used in type-mismatch
error messages the way `encoding/json` names the offending value. -/
def Json.typeName : Json → String
  | .null => "null"
  | .bool _ => "bool"
  | .num _ => "number"
  | .str _ => "string"
  | .arr _ => "array"
  | .obj _ => "object"

/-- The single error kind of the core: a decode failure wrapping the
underlying `encoding/json` parse failure (syntax error, type mismatch, or
end of stream). -/
inductive DecodeError where
  | syntaxError (msg : String)
  | typeError (value ty : String)
  | eof
  deriving Repr, DecidableEq

/-- The textual message carried by a decode error (`err.Error()` in Go). -/
def DecodeError.message : DecodeError → String
  | .syntaxError msg => msg
  | .typeError value ty =>
      "json: cannot unmarshal " ++ value ++ " into Go value of type " ++ ty
  | .eof => "EOF"

/-- The payload stream handed to `json.NewDecoder`, pre-tokenized: `docs` is
the sequence of well-formed JSON documents the byte stream contains, and
`trailing = some msg` means the documents are followed by malformed bytes
whose scan fails with syntax-error message `msg` (`none` means clean end of
stream). -/
structure ByteStream where
  docs : List Json
  trailing : Option String
  deriving Repr

/-- Model of `json.Decoder.Decode`'s reading discipline: it reads the next
JSON-encoded value from the stream and stops there, returning the remaining
stream; at an exhausted stream it fails with `io.EOF`, and at malformed bytes
with the scanner's syntax error. -/
def decoderDecode (s : ByteStream) : Except DecodeError (Json × ByteStream) :=
  match s.docs with
  | d :: rest => .ok (d, { docs := rest, trailing := s.trailing })
  | [] =>
    match s.trailing with
    | some msg => .error (.syntaxError msg)
    | none => .error .eof

/-- The canonical record (`type GreetRequest struct { Name string }` with tag
`json:"name"`). -/
structure GreetRequest where
  name : String
  deriving Repr, DecidableEq

/-- ASCII lower-casing of one character, for the case-insensitive half of
`encoding/json` field matching. -/
def asciiLower (c : Char) : Char :=
  if 'A' ≤ c ∧ c ≤ 'Z' then Char.ofNat (c.toNat + 32) else c

/-- Field-tag matching of `encoding/json`: an incoming object key selects a
struct field by exact match on the tag, or else case-insensitively
(`strings.EqualFold`, modelled here as ASCII case-insensitivity — the tags of
the source are ASCII). -/
def fieldMatch (key tag : String) : Bool :=
  key == tag || key.data.map asciiLower == tag.data.map asciiLower

/-- One step of decoding an object field into a `GreetRequest` per
`encoding/json`: a key matching tag `name` sets the field when the value is a
string, is a no-op on `null`, and records the first type error otherwise
(decoding continues); any other key is ignored. -/
def applyGreetRequestField (acc : GreetRequest × Option DecodeError)
    (kv : String × Json) : GreetRequest × Option DecodeError :=
  if fieldMatch kv.1 "name" then
    match kv.2 with
    | .str s => ({ name := s }, acc.2)
    | .null => acc
    | v => (acc.1, acc.2 <|> some (.typeError v.typeName "string"))
  else acc

/-- Decoding one JSON document into a `GreetRequest` receiver, as
`encoding/json` does for a plain struct: an object is folded field by field
into the receiver, `null` is a no-op, and any other document is a type error
that leaves the receiver unchanged. -/
def unmarshalGreetRequest (d : Json) (gr : GreetRequest) :
    GreetRequest × Option DecodeError :=
  match d with
  | .obj fields => fields.foldl applyGreetRequestField (gr, none)
  | .null => (gr, none)
  | v => (gr, some (.typeError v.typeName "versioning.GreetRequest"))

/-- The legacy record (`type GreetRequestV1 struct { *GreetRequest; FirstName,
LastName string }` with tags `json:"firstName"`, `json:"lastName"`).  The
embedded `*GreetRequest` pointer is modelled as an `Option`: `none` is the nil
pointer of a zero `GreetRequestV1`, `some` holds the record the pointer
designates. -/
structure GreetRequestV1 where
  greetRequest : Option GreetRequest := none
  firstName : String := ""
  lastName : String := ""
  deriving Repr, DecidableEq

/-- Mirror of `type grv1 GreetRequestV1` inside `UnmarshalJSON`: the same
shape with the method set stripped, so that `json.Unmarshal` uses the plain
struct decoding below rather than recursing into `UnmarshalJSON`. -/
def grv1 := GreetRequestV1

/-- One step of decoding an object field into a `grv1` value per
`encoding/json`.  Keys match `firstName`, `lastName`, or the promoted `name`
field of the embedded `*GreetRequest`; reaching the promoted field allocates
the embedded record when the pointer is nil, in the fresh local value only. -/
def applyGrv1Field (acc : GreetRequestV1 × Option DecodeError)
    (kv : String × Json) : GreetRequestV1 × Option DecodeError :=
  if fieldMatch kv.1 "firstName" then
    match kv.2 with
    | .str s => ({ acc.1 with firstName := s }, acc.2)
    | .null => acc
    | v => (acc.1, acc.2 <|> some (.typeError v.typeName "string"))
  else if fieldMatch kv.1 "lastName" then
    match kv.2 with
    | .str s => ({ acc.1 with lastName := s }, acc.2)
    | .null => acc
    | v => (acc.1, acc.2 <|> some (.typeError v.typeName "string"))
  else if fieldMatch kv.1 "name" then
    let g := acc.1.greetRequest.getD { name := "" }
    match kv.2 with
    | .str s => ({ acc.1 with greetRequest := some { name := s } }, acc.2)
    | .null => ({ acc.1 with greetRequest := some g }, acc.2)
    | v => ({ acc.1 with greetRequest := some g },
            acc.2 <|> some (.typeError v.typeName "string"))
  else acc

/-- Decoding one JSON document into a zero `grv1` value (`var v1r grv1` inside
`UnmarshalJSON` followed by `json.Unmarshal(b, &v1r)`). -/
def unmarshalGrv1 (d : Json) : GreetRequestV1 × Option DecodeError :=
  match d with
  | .obj fields => fields.foldl applyGrv1Field ({}, none)
  | .null => ({}, none)
  | v => ({}, some (.typeError v.typeName "versioning.grv1"))

/-- `func (r GreetRequestV1) UnmarshalJSON(b []byte) error`: unmarshal the
document into a fresh `grv1` value; on failure return the error with the
receiver untouched, on success write `FirstName + " " + LastName` through the
embedded pointer into the wrapped canonical record. -/
def GreetRequestV1.UnmarshalJSON (r : GreetRequestV1) (d : Json) :
    GreetRequestV1 × Option DecodeError :=
  match unmarshalGrv1 d with
  | (_, some e) => (r, some e)
  | (v1r, none) =>
      ({ r with greetRequest :=
          r.greetRequest.map fun g =>
            { g with name := v1r.firstName ++ " " ++ v1r.lastName } }, none)

/-- `func (gr *GreetRequest) fromV1() json.Unmarshaler`: wrap the canonical
record in a `GreetRequestV1` whose embedded pointer designates it. -/
def GreetRequest.fromV1 (gr : GreetRequest) : GreetRequestV1 :=
  { greetRequest := some gr }

/-- `func (gr *GreetRequest) Decode(version string, r io.Reader) error`: read
the next JSON document from the stream, then dispatch on the version tag —
`"v1"` routes through the `GreetRequestV1` adapter, every other tag decodes
directly into the canonical record.  The result carries the (possibly
mutated) receiver, the error if any, and the remaining stream. -/
def GreetRequest.Decode (gr : GreetRequest) (version : String) (s : ByteStream) :
    GreetRequest × Option DecodeError × ByteStream :=
  match decoderDecode s with
  | .error e => (gr, some e, s)
  | .ok (d, rest) =>
    if version = "v1" then
      match (gr.fromV1).UnmarshalJSON d with
      | (wrapped, err) => (wrapped.greetRequest.getD gr, err, rest)
    else
      match unmarshalGreetRequest d gr with
      | (gr2, err) => (gr2, err, rest)

/-- JSON string escaping of `encoding/json`'s encoder for one character:
quote, backslash and control characters are escaped, and `<`, `>`, `&` are
HTML-escaped as the Go encoder does by default. -/
def escapeJsonChar (c : Char) : String :=
  if c = '"' then "\\\""
  else if c = '\\' then "\\\\"
  else if c = '\n' then "\\n"
  else if c = '\r' then "\\r"
  else if c = '\t' then "\\t"
  else if c = '<' then "\\u003c"
  else if c = '>' then "\\u003e"
  else if c = '&' then "\\u0026"
  else if c.toNat < 32 then
    "\\u00" ++ String.singleton (Nat.digitChar (c.toNat / 16))
            ++ String.singleton (Nat.digitChar (c.toNat % 16))
  else String.singleton c

/-- JSON rendering of a string literal, per `encoding/json`'s encoder. -/
def encodeJsonString (s : String) : String :=
  "\"" ++ String.join (s.toList.map escapeJsonChar) ++ "\""

/-- An HTTP response as the handler produces it: a status code and a body.
`http.Error` writes the error message followed by a newline with status 400;
`json.Encoder.Encode` writes the JSON document followed by a newline. -/
structure HttpResponse where
  status : Nat
  body : String
  deriving Repr, DecidableEq

/-- `func GreetHandler(w http.ResponseWriter, r *http.Request)`: decode the
request body into a fresh `GreetRequest` under the version tag taken from the
path; on error respond 400 with the error's message, on success respond with
the JSON greeting built from the decoded name. -/
def GreetHandler (version : String) (body : ByteStream) : HttpResponse :=
  match GreetRequest.Decode { name := "" } version body with
  | (_, some e, _) => { status := 400, body := e.message ++ "\n" }
  | (req, none, _) =>
      { status := 200
        body := "\x7b\"greeting\":"
                ++ encodeJsonString ("Hello " ++ req.name ++ "!")
                ++ "\x7d\n" }

/-- A heap of `GreetRequest` cells, for stating the frame property of
`Decode`: a pointer is an index into `cells`, and allocation appends a fresh
cell.  The cell at the receiver's index is the record `Decode` was called on;
every other cell stands for unrelated program state. -/
structure Heap where
  cells : List GreetRequest
  deriving Repr, DecidableEq

/-- Heap-level rendering of `GreetRequest.Decode`, making the pointer writes
of the source explicit: the receiver is the cell at index `p`; the `"v1"` path
allocates a fresh cell when the inner unmarshal reaches the promoted `name`
field of the nil embedded pointer (the throwaway record of `v1r`), and on
success writes the joined name into the receiver's cell; the default path
writes the directly-unmarshalled record into the receiver's cell. -/
def DecodeHeap (h : Heap) (p : Nat) (version : String) (s : ByteStream) :
    Heap × Option DecodeError × ByteStream :=
  let gr := h.cells.getD p { name := "" }
  match decoderDecode s with
  | .error e => (h, some e, s)
  | .ok (d, rest) =>
    if version = "v1" then
      match unmarshalGrv1 d with
      | (v1r, err) =>
        let h1 : Heap :=
          match v1r.greetRequest with
          | some g => { cells := h.cells ++ [g] }
          | none => h
        match err with
        | some e => (h1, some e, rest)
        | none =>
            ({ cells :=
                h1.cells.set p { name := v1r.firstName ++ " " ++ v1r.lastName } },
             none, rest)
    else
      match unmarshalGreetRequest d gr with
      | (gr2, err) => ({ cells := h.cells.set p gr2 }, err, rest)

/-- Appending the empty string is the identity; used to normalize names built
by joining an absent field. -/
theorem string_append_empty (s : String) : s ++ "" = s := by
  cases s
  simp [String.append]

/-- Claim C1: decoding a valid v1 payload with string fields `firstName = F`
and `lastName = L` (in either field order) under the `"v1"` tag succeeds and
sets the canonical record's name to `F ++ " " ++ L` exactly — a single
literal space separator, no trimming, no non-emptiness validation. -/
theorem decode_v1_joins_names (F L : String) (gr : GreetRequest) :
    GreetRequest.Decode gr "v1"
        { docs := [Json.obj [("firstName", Json.str F), ("lastName", Json.str L)]],
          trailing := none }
      = ({ name := F ++ " " ++ L }, none, { docs := [], trailing := none })
    ∧ GreetRequest.Decode gr "v1"
        { docs := [Json.obj [("lastName", Json.str L), ("firstName", Json.str F)]],
          trailing := none }
      = ({ name := F ++ " " ++ L }, none, { docs := [], trailing := none }) :=
  ⟨rfl, rfl⟩

/-- Claim C2: decoding a current-shape payload `{name: N}` under any tag other
than `"v1"` succeeds and sets the canonical record's name to `N` exactly. -/
theorem decode_default_identity (N : String) (version : String)
    (h : version ≠ "v1") (gr : GreetRequest) :
    GreetRequest.Decode gr version
        { docs := [Json.obj [("name", Json.str N)]], trailing := none }
      = ({ name := N }, none, { docs := [], trailing := none }) := by
  simp only [GreetRequest.Decode, decoderDecode, if_neg h]
  rfl

theorem decode_default_identity_witness :
    ("v2" : String) ≠ "v1"
    ∧ GreetRequest.Decode { name := "" } "v2"
        { docs := [Json.obj [("name", Json.str "Jane Sample")]], trailing := none }
      = ({ name := "Jane Sample" }, none, { docs := [], trailing := none }) :=
  ⟨by decide, decode_default_identity "Jane Sample" "v2" (by decide) { name := "" }⟩

/-- Claim C3: dispatch on the version tag has one explicit case and one
default case — for every tag other than `"v1"` (including `"v2"`, the empty
string, or any unknown string), `Decode` parses the payload directly as the
current canonical shape, so an unrecognized tag is never by itself an
error. -/
theorem decode_dispatch_default (version : String) (h : version ≠ "v1")
    (gr : GreetRequest) (s : ByteStream) :
    GreetRequest.Decode gr version s =
      match decoderDecode s with
      | .error e => (gr, some e, s)
      | .ok (d, rest) =>
        match unmarshalGreetRequest d gr with
        | (gr2, err) => (gr2, err, rest) := by
  cases hd : decoderDecode s with
  | error e => simp [GreetRequest.Decode, hd]
  | ok p => simp [GreetRequest.Decode, hd, if_neg h]

theorem decode_dispatch_default_witness :
    ("version-that-does-not-exist" : String) ≠ "v1"
    ∧ GreetRequest.Decode { name := "" } "version-that-does-not-exist"
        { docs := [Json.obj [("name", Json.str "Jane")]], trailing := none }
      = match decoderDecode { docs := [Json.obj [("name", Json.str "Jane")]], trailing := none } with
        | .error e => ({ name := "" }, some e, { docs := [Json.obj [("name", Json.str "Jane")]], trailing := none })
        | .ok (d, rest) =>
          match unmarshalGreetRequest d { name := "" } with
          | (gr2, err) => (gr2, err, rest) :=
  ⟨by decide,
   decode_dispatch_default "version-that-does-not-exist" (by decide) { name := "" }
     { docs := [Json.obj [("name", Json.str "Jane")]], trailing := none }⟩

/-- Claim C4: after every successful decode, the canonical record's name is
fully populated according to the version's normalization rule — on the `"v1"`
path it is exactly the join `firstName ++ " " ++ lastName` of the
successfully unmarshalled legacy record, and on every other path it is
exactly the result of unmarshalling the document directly into the receiver;
no partially-populated record accompanies a success result. -/
theorem decode_success_fully_populated (version : String) (gr gr' : GreetRequest)
    (s s' : ByteStream) (h : GreetRequest.Decode gr version s = (gr', none, s')) :
    ∃ d, decoderDecode s = .ok (d, s')
      ∧ (if version = "v1" then
          ∃ v1r, unmarshalGrv1 d = (v1r, none)
            ∧ gr'.name = v1r.firstName ++ " " ++ v1r.lastName
         else unmarshalGreetRequest d gr = (gr', none)) := by
  cases hd : decoderDecode s with
  | error e =>
    simp only [GreetRequest.Decode, hd] at h
    simp at h
  | ok p =>
    obtain ⟨d, rest⟩ := p
    simp only [GreetRequest.Decode, hd] at h
    by_cases hv : version = "v1"
    · rw [if_pos hv] at h
      cases hu : unmarshalGrv1 d with
      | mk v1r err =>
        cases err with
        | some e =>
          simp [GreetRequestV1.UnmarshalJSON, hu] at h
        | none =>
          simp [GreetRequestV1.UnmarshalJSON, hu, GreetRequest.fromV1] at h
          obtain ⟨hgr, hrest⟩ := h
          subst hrest
          refine ⟨d, rfl, ?_⟩
          rw [if_pos hv]
          exact ⟨v1r, hu, by rw [← hgr]⟩
    · rw [if_neg hv] at h
      cases hu : unmarshalGreetRequest d gr with
      | mk gr2 err =>
        simp [hu] at h
        obtain ⟨hgr, herr, hrest⟩ := h
        subst hrest
        refine ⟨d, rfl, ?_⟩
        rw [if_neg hv, hu, hgr, herr]

theorem decode_success_fully_populated_witness :
    ∃ d, decoderDecode
          { docs := [Json.obj [("firstName", Json.str "John"), ("lastName", Json.str "Sample")]],
            trailing := none }
        = .ok (d, { docs := [], trailing := none })
      ∧ (if ("v1" : String) = "v1" then
          ∃ v1r, unmarshalGrv1 d = (v1r, none)
            ∧ ({ name := "John Sample" } : GreetRequest).name
              = v1r.firstName ++ " " ++ v1r.lastName
         else unmarshalGreetRequest d { name := "" } = ({ name := "John Sample" }, none)) :=
  decode_success_fully_populated "v1" { name := "" } { name := "John Sample" }
    { docs := [Json.obj [("firstName", Json.str "John"), ("lastName", Json.str "Sample")]],
      trailing := none }
    { docs := [], trailing := none } rfl

/-- Claim C5: a payload that is not valid JSON fails on every path (legacy and
default alike) with a `DecodeError` carrying the underlying parse failure
message, the error is surfaced unchanged to the caller, and the handler turns
it into a 400 response whose body contains the message; likewise a required
field of the wrong type fails on the legacy and on the default path. -/
theorem decode_error_propagation (version msg : String) (gr : GreetRequest) :
    GreetRequest.Decode gr version { docs := [], trailing := some msg }
      = (gr, some (DecodeError.syntaxError msg), { docs := [], trailing := some msg })
    ∧ GreetHandler version { docs := [], trailing := some msg }
      = { status := 400, body := msg ++ "\n" }
    ∧ GreetRequest.Decode gr "v1"
        { docs := [Json.obj [("firstName", Json.num 5), ("lastName", Json.str "x")]],
          trailing := none }
      = (gr, some (DecodeError.typeError "number" "string"),
         { docs := [], trailing := none })
    ∧ GreetRequest.Decode gr "v2"
        { docs := [Json.obj [("name", Json.num 5)]], trailing := none }
      = (gr, some (DecodeError.typeError "number" "string"),
         { docs := [], trailing := none })
    ∧ GreetHandler "v2" { docs := [Json.obj [("name", Json.num 5)]], trailing := none }
      = { status := 400,
          body := (DecodeError.typeError "number" "string").message ++ "\n" } :=
  ⟨rfl, rfl, rfl, rfl, rfl⟩

/-- Claim C6: a v1 payload in which `lastName` is absent still decodes
successfully — the missing string field defaults to empty and the name is the
concatenation with the empty half, with its trailing space preserved. -/
theorem decode_v1_missing_last (F : String) (gr : GreetRequest) :
    GreetRequest.Decode gr "v1"
        { docs := [Json.obj [("firstName", Json.str F)]], trailing := none }
      = ({ name := F ++ " " }, none, { docs := [], trailing := none })
    ∧ GreetRequest.Decode gr "v1"
        { docs := [Json.obj [("firstName", Json.str "John")]], trailing := none }
      = ({ name := "John " }, none, { docs := [], trailing := none }) := by
  constructor
  · rw [← string_append_empty (F ++ " ")]
    rfl
  · rfl

/-- Claim C7 counterexample: a stream whose first JSON document is valid but
which is followed by a further document is accepted — `Decode` succeeds and
leaves the second document unread, refuting the claim that decoding reads the
payload stream until it is exhausted. -/
theorem decode_stops_after_first_document :
    (GreetRequest.Decode { name := "" } "v2"
        { docs := [Json.obj [("name", Json.str "A")], Json.obj []], trailing := none }).2.1
      = none
    ∧ (GreetRequest.Decode { name := "" } "v2"
        { docs := [Json.obj [("name", Json.str "A")], Json.obj []], trailing := none }).2.2.docs
      = [Json.obj []] :=
  ⟨rfl, rfl⟩

/-- Claim C7 amended: for every input stream, `Decode` reads exactly one JSON
document from the stream and stops there — the outcome is determined by that
first document alone, the rest of the stream is left unread, and further
content after the first document is never by itself an error. -/
theorem decode_reads_exactly_one_document (version : String) (gr : GreetRequest)
    (d : Json) (docs : List Json) (t : Option String) :
    ∃ gr' e, GreetRequest.Decode gr version { docs := d :: docs, trailing := t }
        = (gr', e, { docs := docs, trailing := t })
      ∧ GreetRequest.Decode gr version { docs := [d], trailing := none }
        = (gr', e, { docs := [], trailing := none }) := by
  by_cases hv : version = "v1"
  · cases hu : (gr.fromV1).UnmarshalJSON d with
    | mk wrapped err =>
      refine ⟨wrapped.greetRequest.getD gr, err, ?_, ?_⟩ <;>
        simp [GreetRequest.Decode, decoderDecode, if_pos hv, hu]
  · cases hu : unmarshalGreetRequest d gr with
    | mk gr2 err =>
      refine ⟨gr2, err, ?_, ?_⟩ <;>
        simp [GreetRequest.Decode, decoderDecode, if_neg hv, hu]

/-- Claim C8: a decode call modifies nothing but the canonical record it was
called on (and the read position of the input stream): in the heap rendering,
every cell other than the receiver's is unchanged by `DecodeHeap`, for every
version tag and every payload. -/
theorem decodeHeap_frame (h : Heap) (p q : Nat) (version : String) (s : ByteStream)
    (hq : q < h.cells.length) (hne : q ≠ p) :
    ((DecodeHeap h p version s).1.cells)[q]? = (h.cells)[q]? := by
  cases hd : decoderDecode s with
  | error e => simp [DecodeHeap, hd]
  | ok pr =>
    obtain ⟨d, rest⟩ := pr
    by_cases hv : version = "v1"
    · cases hu : unmarshalGrv1 d with
      | mk v1r err =>
        cases hg : v1r.greetRequest with
        | none =>
          cases err <;>
            simp [DecodeHeap, hd, if_pos hv, hu, hg,
              List.getElem?_set_ne (Ne.symm hne)]
        | some g =>
          cases err <;>
            simp [DecodeHeap, hd, if_pos hv, hu, hg,
              List.getElem?_set_ne (Ne.symm hne), List.getElem?_append_left hq]
    · cases hu : unmarshalGreetRequest d (h.cells.getD p { name := "" }) with
      | mk gr2 err =>
        simp [DecodeHeap, hd, if_neg hv, hu,
          List.getElem?_set_ne (Ne.symm hne)]

theorem decodeHeap_frame_witness :
    (1 : Nat) < (Heap.mk [{ name := "a" }, { name := "b" }]).cells.length
    ∧ (1 : Nat) ≠ 0
    ∧ ((DecodeHeap (Heap.mk [{ name := "a" }, { name := "b" }]) 0 "v1"
          { docs := [Json.obj [("name", Json.str "X"), ("firstName", Json.str "A")]],
            trailing := none }).1.cells)[1]?
      = ((Heap.mk [{ name := "a" }, { name := "b" }]).cells)[1]? :=
  ⟨by decide, by decide,
   decodeHeap_frame (Heap.mk [{ name := "a" }, { name := "b" }]) 0 1 "v1"
     { docs := [Json.obj [("name", Json.str "X"), ("firstName", Json.str "A")]],
       trailing := none }
     (by decide) (by decide)⟩

/-- Claim C9: on the `"v1"` path a `"name"` key in the payload has no effect —
whatever its position, the decoded record's name is `firstName ++ " " ++
lastName`, because the `"name"` value only ever reaches the throwaway record
allocated behind the local `grv1` value's nil embedded pointer, and the join
then overwrites the caller's record. -/
theorem decode_v1_ignores_name_key (F L N : String) (gr : GreetRequest) :
    GreetRequest.Decode gr "v1"
        { docs := [Json.obj [("name", Json.str N), ("firstName", Json.str F),
                             ("lastName", Json.str L)]],
          trailing := none }
      = ({ name := F ++ " " ++ L }, none, { docs := [], trailing := none })
    ∧ GreetRequest.Decode gr "v1"
        { docs := [Json.obj [("firstName", Json.str F), ("lastName", Json.str L),
                             ("name", Json.str N)]],
          trailing := none }
      = ({ name := F ++ " " ++ L }, none, { docs := [], trailing := none }) :=
  ⟨rfl, rfl⟩

/-- Claim C10: the `"v1"` path is atomic with respect to the canonical record:
whenever decoding under the `"v1"` tag fails, the record is returned exactly
as it was before the call — the adapter only writes to it after the
intermediate unmarshal has succeeded. -/
theorem decode_v1_atomic_on_error (gr : GreetRequest) (s : ByteStream)
    (e : DecodeError) (h : (GreetRequest.Decode gr "v1" s).2.1 = some e) :
    (GreetRequest.Decode gr "v1" s).1 = gr := by
  cases hd : decoderDecode s with
  | error e2 => simp [GreetRequest.Decode, hd]
  | ok pr =>
    obtain ⟨d, rest⟩ := pr
    cases hu : unmarshalGrv1 d with
    | mk v1r err =>
      cases err with
      | some e2 =>
        simp [GreetRequest.Decode, hd, GreetRequestV1.UnmarshalJSON, hu,
          GreetRequest.fromV1]
      | none =>
        rw [GreetRequest.Decode, hd] at h
        simp [GreetRequestV1.UnmarshalJSON, hu, GreetRequest.fromV1] at h

theorem decode_v1_atomic_on_error_witness :
    ((GreetRequest.Decode { name := "kept" } "v1"
        { docs := [Json.obj [("firstName", Json.num 5)]], trailing := none }).2.1
      = some (DecodeError.typeError "number" "string"))
    ∧ (GreetRequest.Decode { name := "kept" } "v1"
        { docs := [Json.obj [("firstName", Json.num 5)]], trailing := none }).1
      = { name := "kept" } :=
  ⟨rfl,
   decode_v1_atomic_on_error { name := "kept" }
     { docs := [Json.obj [("firstName", Json.num 5)]], trailing := none }
     (DecodeError.typeError "number" "string") rfl⟩

end Versioning
